import Mathlib

/-!
spectator-go: configuration resolution.

A shallow embedding of `spectator/config.go` and `spectator/option.go`:

* `calculateLocation`   - validation, environment override and default of the output location;
* `calculateCommonTags` - merge of caller tags with the tags derived from the environment;
* `calculateLogger`     - default of the logger;
* `ConfigOption`, `configOptionFunc.apply`, `WithWriter` - the options mechanism;
* `NewConfig`           - the constructor that puts the above together.

Go strings are Lean strings, `map[string]string` is an association list with unique keys
(`AList`), a Go interface value is an `Option` (`none` is the nil interface), an `error` is its
message, and a run-time panic is an explicit outcome.
-/

namespace Spectator

/-! ## Data model -/

/-- A Go `map[string]string`: finitely many entries, keys unique. -/
abbrev TagMap := AList (fun _ : String => String)

/-- The process environment as read by `os.LookupEnv`: `none` when the variable is unset,
`some v` when it is set to `v` (possibly the empty string). -/
abbrev Environ := String → Option String

/-- The struct `Config`. `L` stands for the non-nil values of the interface `logger.Logger` and
`W` for the non-nil values of the interface `writer.Writer`; `none` is the nil interface. -/
structure Config (L W : Type) where
  location : String
  commonTags : TagMap
  log : Option L
  writer : Option W

/-- The function type `configOptionFunc`, `func(conf *Config)`: `none` is the nil function,
`some f` a function that mutates the configuration it is handed. -/
abbrev configOptionFunc (L W : Type) := Option (Config L W → Config L W)

/-- A value of the interface `Option`. The only type of the package with an `apply` method is
`configOptionFunc`, so a value is either the nil interface or a boxed `configOptionFunc`
(which may itself be the nil function). -/
inductive ConfigOption (L W : Type) where
  | nilInterface : ConfigOption L W
  | func (c : configOptionFunc L W) : ConfigOption L W

/-- What a call of `NewConfig` does: it returns a configuration, returns an error, or the
goroutine panics. -/
inductive Outcome (α : Type) where
  | ok (a : α) : Outcome α
  | error (msg : String) : Outcome α
  | panic : Outcome α

deriving instance DecidableEq for Except

/-! ## The validity predicate -/

/-- The bare location tokens of the grammar. -/
def bareLocations : List String := ["none", "memory", "stderr", "stdout", "udp", "unix"]

/-- The schemes of a URI-shaped location. -/
def uriSchemes : List String := ["file", "udp", "unix"]

/-- Whether `output` is `scheme ++ "://" ++ rest` for a non-empty `rest`. -/
def hasUriShape (scheme output : String) : Bool :=
  (scheme ++ "://").data.isPrefixOf output.data &&
    decide ((scheme ++ "://").data.length < output.data.length)

/-- Modelled from the spec: `writer.IsValidOutputLocation`, which lives in the package
`spectator/writer` and is not part of the sources at hand. The string is one of the bare tokens
`none`, `memory`, `stderr`, `stdout`, `udp`, `unix`, or has the shape `scheme://rest` with
`scheme` one of `file`, `udp`, `unix` and `rest` non-empty. -/
def IsValidOutputLocation (output : String) : Bool :=
  bareLocations.contains output || uriSchemes.any (fun scheme => hasUriShape scheme output)

/-! ## config.go -/

/-- The function `calculateLocation`. `isValid` is `writer.IsValidOutputLocation` and `env` the
process environment. The result is the location, or the message of the returned error. -/
def calculateLocation (isValid : String → Bool) (env : Environ) (location : String) :
    Except String String := do
  if location ≠ "" ∧ isValid location = false then
    throw ("invalid spectatord output location: " ++ location)
  let location ← match env "SPECTATOR_OUTPUT_LOCATION" with
    | some override =>
      if isValid override = false then
        throw ("SPECTATOR_OUTPUT_LOCATION is invalid: " ++ override)
      else
        pure override
    | none => pure location
  let location := if location = "" then "udp" else location
  return location

/-- The function `calculateLogger`. `newDefaultLogger` is the logger that
`logger.NewDefaultLogger()` returns. -/
def calculateLogger {L : Type} (newDefaultLogger : L) (log : Option L) : Option L :=
  let lg := log
  if log.isNone then some newDefaultLogger else lg

/-- The body of the first loop of `calculateCommonTags`, for one entry `k, v` of the caller's
map: tag keys and values may not be empty strings. -/
def copyCallerTag (mergedTags : TagMap) (kv : Sigma (fun _ : String => String)) : TagMap :=
  if kv.1 ≠ "" ∧ kv.2 ≠ "" then mergedTags.insert kv.1 kv.2 else mergedTags

/-- The body of the second loop of `calculateCommonTags`, for one entry `k, v` of the map
derived from the environment. -/
def copyEnvTag (mergedTags : TagMap) (kv : Sigma (fun _ : String => String)) : TagMap :=
  mergedTags.insert kv.1 kv.2

/-- The two loops of `calculateCommonTags`, run over the entries of the two maps in the orders
`callerOrder` and `envOrder` (Go leaves the iteration order of `range` over a map open). -/
def mergeInOrder (envOrder callerOrder : List (Sigma (fun _ : String => String))) : TagMap :=
  let mergedTags : TagMap := ∅
  let mergedTags := callerOrder.foldl copyCallerTag mergedTags
  let mergedTags := envOrder.foldl copyEnvTag mergedTags
  mergedTags

/-- The function `calculateCommonTags`. `tagsFromEnvVars` is the map that the function of that
name returns; the loops visit the entries in the order in which the maps hold them. -/
def calculateCommonTags (tagsFromEnvVars commonTags : TagMap) : TagMap :=
  mergeInOrder tagsFromEnvVars.entries commonTags.entries

/-! ## option.go -/

/-- The method `configOptionFunc.apply`: a nil function is skipped. -/
def configOptionFunc.apply {L W : Type} (c : configOptionFunc L W) (conf : Config L W) :
    Config L W :=
  match c with
  | some f => f conf
  | none => conf

/-- The call `opt.apply(conf)` through the interface `Option`. On the nil interface there is no
method to call and the goroutine panics (`none`); otherwise the configuration is mutated. -/
def ConfigOption.apply {L W : Type} (opt : ConfigOption L W) (conf : Config L W) :
    Option (Config L W) :=
  match opt with
  | .nilInterface => none
  | .func c => some (configOptionFunc.apply c conf)

/-- The function `WithWriter`. The argument is a value of the interface `writer.Writer`. -/
def WithWriter {L W : Type} (w : Option W) : ConfigOption L W :=
  .func (some (fun conf => { conf with location := "custom", writer := w }))

/-! ## NewConfig -/

/-- The loop `for _, opt := range opts { opt.apply(conf) }` of `NewConfig`; `none` is a panic. -/
def applyOpts {L W : Type} : List (ConfigOption L W) → Config L W → Option (Config L W)
  | [], conf => some conf
  | opt :: opts, conf =>
    match opt.apply conf with
    | none => none
    | some conf => applyOpts opts conf

/-- The function `NewConfig`. The first four arguments are what the function takes from its
surroundings: `writer.IsValidOutputLocation`, the process environment, the result of
`tagsFromEnvVars()` and the result of `logger.NewDefaultLogger()`. -/
def NewConfig {L W : Type} (isValid : String → Bool) (env : Environ) (tagsFromEnvVars : TagMap)
    (newDefaultLogger : L) (location : String) (commonTags : TagMap) (log : Option L)
    (opts : List (ConfigOption L W)) : Outcome (Config L W) :=
  match calculateLocation isValid env location with
  | .error err => .error err
  | .ok location =>
    let mergedTags := calculateCommonTags tagsFromEnvVars commonTags
    let lg := calculateLogger newDefaultLogger log
    let conf : Config L W := { location := location, commonTags := mergedTags, log := lg, writer := none }
    match applyOpts opts conf with
    | none => .panic
    | some conf => .ok conf

/-! ## The location grammar -/

/-- The non-empty locations of the grammar: a bare token, or `scheme://rest` with an allowed
scheme and a non-empty rest. -/
def LocationGrammar (s : String) : Prop :=
  s ∈ bareLocations ∨ ∃ scheme ∈ uriSchemes, ∃ rest : String, rest ≠ "" ∧ s = scheme ++ "://" ++ rest

/-! ## Environments for concrete runs -/

/-- The environment in which no variable is set. -/
def emptyEnviron : Environ := fun _ => none

/-- The environment after `os.Setenv(name, value)`. -/
def setenv (env : Environ) (name value : String) : Environ :=
  fun n => if n = name then some value else env n

/-! ## calculateLocation -/

theorem calculateLocation_argument_invalid (isValid : String → Bool) (env : Environ)
    (location : String) (hne : location ≠ "") (hbad : isValid location = false) :
    calculateLocation isValid env location
      = .error ("invalid spectatord output location: " ++ location) := by
  simp [calculateLocation, hne, hbad]
  rfl

theorem calculateLocation_argument_ok (isValid : String → Bool) (env : Environ)
    (location : String) (hok : location = "" ∨ isValid location = true) :
    calculateLocation isValid env location =
      match env "SPECTATOR_OUTPUT_LOCATION" with
      | some override =>
        if isValid override = false then
          .error ("SPECTATOR_OUTPUT_LOCATION is invalid: " ++ override)
        else .ok (if override = "" then "udp" else override)
      | none => .ok (if location = "" then "udp" else location) := by
  have hguard : ¬ (location ≠ "" ∧ isValid location = false) := by
    rcases hok with h | h
    · simp [h]
    · simp [h]
  unfold calculateLocation
  rw [if_neg hguard]
  cases henv : env "SPECTATOR_OUTPUT_LOCATION" with
  | none => rfl
  | some override =>
    by_cases hv : isValid override = false
    · simp [hv]; rfl
    · simp [hv]; rfl

/-! ## The validity predicate and the grammar -/

theorem hasUriShape_iff (scheme output : String) :
    hasUriShape scheme output = true ↔
      ∃ rest : String, rest ≠ "" ∧ output = scheme ++ "://" ++ rest := by
  unfold hasUriShape
  rw [Bool.and_eq_true, List.isPrefixOf_iff_prefix, decide_eq_true_iff]
  constructor
  · rintro ⟨⟨t, ht⟩, hlen⟩
    refine ⟨String.mk t, ?_, ?_⟩
    · intro h
      have ht0 : t = [] := congrArg String.data h
      rw [← ht, ht0] at hlen
      simp at hlen
    · apply String.ext
      rw [String.data_append, ← ht]
  · rintro ⟨rest, hrest, rfl⟩
    refine ⟨⟨rest.data, (String.data_append (scheme ++ "://") rest).symm⟩, ?_⟩
    have hpos : 0 < rest.data.length := by
      rcases hd : rest.data with _ | ⟨c, t⟩
      · exact absurd (String.ext hd) hrest
      · simp
    rw [String.data_append (scheme ++ "://") rest, List.length_append]
    omega

theorem IsValidOutputLocation_iff (s : String) :
    IsValidOutputLocation s = true ↔ LocationGrammar s := by
  unfold IsValidOutputLocation LocationGrammar
  rw [Bool.or_eq_true, List.contains, List.elem_iff, List.any_eq_true]
  constructor
  · rintro (h | ⟨scheme, hs, hshape⟩)
    · exact Or.inl h
    · exact Or.inr ⟨scheme, hs, (hasUriShape_iff scheme s).1 hshape⟩
  · rintro (h | ⟨scheme, hs, hshape⟩)
    · exact Or.inl h
    · exact Or.inr ⟨scheme, hs, (hasUriShape_iff scheme s).2 hshape⟩

theorem IsValidOutputLocation_empty : IsValidOutputLocation "" = false := by decide

/-! ## Claims about calculateLocation -/

/-- C1, as amended. When `SPECTATOR_OUTPUT_LOCATION` is set to a value that fails the validity
predicate, `calculateLocation` fails for every location argument: the error carries the
argument when the argument is non-empty and itself invalid (it is validated first), and
carries the override value when the argument is empty or valid. -/
theorem calculateLocation_invalid_override (isValid : String → Bool) (env : Environ)
    (override location : String) (hset : env "SPECTATOR_OUTPUT_LOCATION" = some override)
    (hbad : isValid override = false) :
    calculateLocation isValid env location =
      if location ≠ "" ∧ isValid location = false then
        .error ("invalid spectatord output location: " ++ location)
      else
        .error ("SPECTATOR_OUTPUT_LOCATION is invalid: " ++ override) := by
  by_cases hguard : location ≠ "" ∧ isValid location = false
  · rw [if_pos hguard]
    exact calculateLocation_argument_invalid isValid env location hguard.1 hguard.2
  · rw [if_neg hguard, calculateLocation_argument_ok isValid env location, hset]
    · simp [hbad]
    · by_cases hl : location = ""
      · exact Or.inl hl
      · right
        cases hv : isValid location
        · exact absurd ⟨hl, hv⟩ hguard
        · rfl

/-- C1, witness: the override `junk` with the valid argument `stdout`. -/
theorem calculateLocation_invalid_override_witness :
    setenv emptyEnviron "SPECTATOR_OUTPUT_LOCATION" "junk" "SPECTATOR_OUTPUT_LOCATION" = some "junk" ∧
    IsValidOutputLocation "junk" = false ∧
    calculateLocation IsValidOutputLocation
        (setenv emptyEnviron "SPECTATOR_OUTPUT_LOCATION" "junk") "stdout" =
      if "stdout" ≠ "" ∧ IsValidOutputLocation "stdout" = false then
        .error ("invalid spectatord output location: " ++ "stdout")
      else
        .error ("SPECTATOR_OUTPUT_LOCATION is invalid: " ++ "junk") :=
  ⟨by decide, by decide,
    calculateLocation_invalid_override IsValidOutputLocation _ "junk" "stdout"
      (by decide) (by decide)⟩

/-- C1, counterexample. With the override set to the invalid value `junk` and the invalid
argument `bogus`, the error carries the argument `bogus` and not the override value. -/
theorem calculateLocation_invalid_override_counterexample :
    IsValidOutputLocation "junk" = false ∧
    calculateLocation IsValidOutputLocation
        (setenv emptyEnviron "SPECTATOR_OUTPUT_LOCATION" "junk") "bogus" =
      .error "invalid spectatord output location: bogus" ∧
    calculateLocation IsValidOutputLocation
        (setenv emptyEnviron "SPECTATOR_OUTPUT_LOCATION" "junk") "bogus" ≠
      .error "SPECTATOR_OUTPUT_LOCATION is invalid: junk" := by
  decide

/-- C4. When `SPECTATOR_OUTPUT_LOCATION` is set to a value that passes the validity predicate,
`calculateLocation` succeeds and returns the override value, for every location argument that
is empty or valid. -/
theorem calculateLocation_valid_override (env : Environ) (override location : String)
    (hset : env "SPECTATOR_OUTPUT_LOCATION" = some override)
    (hvalid : IsValidOutputLocation override = true)
    (harg : location = "" ∨ IsValidOutputLocation location = true) :
    calculateLocation IsValidOutputLocation env location = .ok override := by
  have hne : override ≠ "" := by
    rintro rfl
    rw [IsValidOutputLocation_empty] at hvalid
    exact Bool.false_ne_true hvalid
  rw [calculateLocation_argument_ok IsValidOutputLocation env location harg, hset]
  simp [hvalid, hne]

/-- C4, witness: the valid argument `udp://localhost:1234` is replaced by the override
`unix:///tmp/sock`. -/
theorem calculateLocation_valid_override_witness :
    setenv emptyEnviron "SPECTATOR_OUTPUT_LOCATION" "unix:///tmp/sock" "SPECTATOR_OUTPUT_LOCATION"
      = some "unix:///tmp/sock" ∧
    IsValidOutputLocation "unix:///tmp/sock" = true ∧
    ("udp://localhost:1234" = "" ∨ IsValidOutputLocation "udp://localhost:1234" = true) ∧
    calculateLocation IsValidOutputLocation
        (setenv emptyEnviron "SPECTATOR_OUTPUT_LOCATION" "unix:///tmp/sock") "udp://localhost:1234"
      = .ok "unix:///tmp/sock" :=
  ⟨by decide, by decide, Or.inr (by decide),
    calculateLocation_valid_override _ "unix:///tmp/sock" "udp://localhost:1234"
      (by decide) (by decide) (Or.inr (by decide))⟩

/-- C5. For every non-empty location argument that fails the validity predicate,
`calculateLocation` returns no location but the error that carries the argument, whatever the
environment. -/
theorem calculateLocation_invalid_argument (isValid : String → Bool) (env : Environ)
    (location : String) (hne : location ≠ "") (hbad : isValid location = false) :
    calculateLocation isValid env location
      = .error ("invalid spectatord output location: " ++ location) :=
  calculateLocation_argument_invalid isValid env location hne hbad

/-- C5, witness: the argument `bogus`. -/
theorem calculateLocation_invalid_argument_witness :
    "bogus" ≠ "" ∧ IsValidOutputLocation "bogus" = false ∧
    calculateLocation IsValidOutputLocation emptyEnviron "bogus"
      = .error ("invalid spectatord output location: " ++ "bogus") :=
  ⟨by decide, by decide,
    calculateLocation_invalid_argument IsValidOutputLocation emptyEnviron "bogus"
      (by decide) (by decide)⟩

/-- C6. A location argument passes the validity predicate exactly when it is a bare token or a
string `scheme://rest` with an allowed scheme and a non-empty rest, and when no override is set
`calculateLocation` succeeds on every such argument and returns it unchanged. -/
theorem calculateLocation_valid_argument (env : Environ) (location : String)
    (hunset : env "SPECTATOR_OUTPUT_LOCATION" = none)
    (hvalid : IsValidOutputLocation location = true ∨ LocationGrammar location) :
    IsValidOutputLocation location = true ∧ LocationGrammar location ∧
      calculateLocation IsValidOutputLocation env location = .ok location := by
  have hv : IsValidOutputLocation location = true :=
    hvalid.elim id (IsValidOutputLocation_iff location).2
  refine ⟨hv, (IsValidOutputLocation_iff location).1 hv, ?_⟩
  have hne : location ≠ "" := by
    rintro rfl
    rw [IsValidOutputLocation_empty] at hv
    exact Bool.false_ne_true hv
  rw [calculateLocation_argument_ok IsValidOutputLocation env location (Or.inr hv), hunset]
  simp [hne]

/-- C6, witness: the argument `udp://localhost:1234`. -/
theorem calculateLocation_valid_argument_witness :
    emptyEnviron "SPECTATOR_OUTPUT_LOCATION" = none ∧
    IsValidOutputLocation "udp://localhost:1234" = true ∧
    LocationGrammar "udp://localhost:1234" ∧
    calculateLocation IsValidOutputLocation emptyEnviron "udp://localhost:1234"
      = .ok "udp://localhost:1234" :=
  ⟨rfl, calculateLocation_valid_argument emptyEnviron "udp://localhost:1234" rfl
    (Or.inl (by decide))⟩

/-- C7. When no override is set, `calculateLocation` succeeds on the empty string and returns
`udp`. -/
theorem calculateLocation_empty_default (isValid : String → Bool) (env : Environ)
    (hunset : env "SPECTATOR_OUTPUT_LOCATION" = none) :
    calculateLocation isValid env "" = .ok "udp" := by
  rw [calculateLocation_argument_ok isValid env "" (Or.inl rfl), hunset]
  rfl

/-- C7, witness: the environment in which nothing is set. -/
theorem calculateLocation_empty_default_witness :
    emptyEnviron "SPECTATOR_OUTPUT_LOCATION" = none ∧
    calculateLocation IsValidOutputLocation emptyEnviron "" = .ok "udp" :=
  ⟨rfl, calculateLocation_empty_default IsValidOutputLocation emptyEnviron rfl⟩

/-! ## calculateCommonTags -/

theorem lookup_foldl_copyEnvTag (k : String) :
    ∀ (l : List (Sigma (fun _ : String => String))) (m : TagMap), l.NodupKeys →
      AList.lookup k (l.foldl copyEnvTag m) = (List.dlookup k l).or (AList.lookup k m) := by
  intro l
  induction l with
  | nil => intro m _; simp
  | cons a t ih =>
    intro m hnd
    rw [List.nodupKeys_cons] at hnd
    rw [List.foldl_cons, ih _ hnd.2]
    obtain ⟨a1, a2⟩ := a
    by_cases hk : k = a1
    · subst hk
      have hnone : List.dlookup k t = none := List.dlookup_eq_none.2 hnd.1
      rw [hnone, List.dlookup_cons_eq]
      simp [copyEnvTag]
    · rw [List.dlookup_cons_ne t ⟨a1, a2⟩ hk]
      simp [copyEnvTag, AList.lookup_insert_ne hk]

theorem lookup_foldl_copyCallerTag (k : String) :
    ∀ (l : List (Sigma (fun _ : String => String))) (m : TagMap), l.NodupKeys →
      AList.lookup k (l.foldl copyCallerTag m) =
        ((List.dlookup k l).filter (fun v => decide (k ≠ "" ∧ v ≠ ""))).or (AList.lookup k m) := by
  intro l
  induction l with
  | nil => intro m _; simp
  | cons a t ih =>
    intro m hnd
    rw [List.nodupKeys_cons] at hnd
    rw [List.foldl_cons, ih _ hnd.2]
    obtain ⟨a1, a2⟩ := a
    by_cases hk : k = a1
    · subst hk
      have hnone : List.dlookup k t = none := List.dlookup_eq_none.2 hnd.1
      rw [hnone, List.dlookup_cons_eq]
      by_cases hkeep : k ≠ "" ∧ a2 ≠ ""
      · simp [copyCallerTag, hkeep, Option.filter_some]
      · simp only [copyCallerTag, if_neg hkeep, Option.filter_some, Option.filter_none,
          Option.none_or, decide_eq_true_eq]
    · rw [List.dlookup_cons_ne t ⟨a1, a2⟩ hk]
      by_cases hkeep : a1 ≠ "" ∧ a2 ≠ ""
      · simp [copyCallerTag, hkeep, AList.lookup_insert_ne hk]
      · simp only [copyCallerTag, if_neg hkeep]

theorem lookup_mergeInOrder (k : String)
    (envOrder callerOrder : List (Sigma (fun _ : String => String)))
    (henv : envOrder.NodupKeys) (hcaller : callerOrder.NodupKeys) :
    AList.lookup k (mergeInOrder envOrder callerOrder) =
      (List.dlookup k envOrder).or
        ((List.dlookup k callerOrder).filter (fun v => decide (k ≠ "" ∧ v ≠ ""))) := by
  unfold mergeInOrder
  simp only []
  rw [lookup_foldl_copyEnvTag k envOrder _ henv, lookup_foldl_copyCallerTag k callerOrder _ hcaller,
    AList.lookup_empty, Option.or_none]

/-- The result of `calculateCommonTags` does not depend on the order in which the two loops
visit the entries of their maps. -/
theorem mergeInOrder_order_irrelevant (tagsFromEnvVars commonTags : TagMap)
    (envOrder callerOrder : List (Sigma (fun _ : String => String)))
    (henv : envOrder.Perm tagsFromEnvVars.entries) (hcaller : callerOrder.Perm commonTags.entries)
    (k : String) :
    AList.lookup k (mergeInOrder envOrder callerOrder) =
      AList.lookup k (calculateCommonTags tagsFromEnvVars commonTags) := by
  have hnd1 : envOrder.NodupKeys := (List.perm_nodupKeys henv).2 tagsFromEnvVars.nodupKeys
  have hnd2 : callerOrder.NodupKeys := (List.perm_nodupKeys hcaller).2 commonTags.nodupKeys
  unfold calculateCommonTags
  rw [lookup_mergeInOrder k _ _ hnd1 hnd2,
    lookup_mergeInOrder k _ _ tagsFromEnvVars.nodupKeys commonTags.nodupKeys,
    List.perm_dlookup k hnd1 tagsFromEnvVars.nodupKeys henv,
    List.perm_dlookup k hnd2 commonTags.nodupKeys hcaller]

/-- C8. The result of `calculateCommonTags` maps a key to the value from the environment when
the environment-derived map holds the key; otherwise to the caller's value when the key is a
non-empty key of the caller's map with a non-empty value; otherwise the key is absent. The
caller's map `a:1, b:2` with the environment-derived map `b:3` gives `a:1, b:3`. -/
theorem calculateCommonTags_lookup :
    (∀ (tagsFromEnvVars commonTags : TagMap) (k : String),
      AList.lookup k (calculateCommonTags tagsFromEnvVars commonTags) =
        match AList.lookup k tagsFromEnvVars with
        | some v => some v
        | none =>
          match AList.lookup k commonTags with
          | some v => if k ≠ "" ∧ v ≠ "" then some v else none
          | none => none) ∧
    (calculateCommonTags (List.toAList [⟨"b", "3"⟩])
        (List.toAList [⟨"a", "1"⟩, ⟨"b", "2"⟩])).entries.Perm [⟨"a", "1"⟩, ⟨"b", "3"⟩] := by
  refine ⟨fun tagsFromEnvVars commonTags k => ?_, by decide⟩
  unfold calculateCommonTags
  rw [lookup_mergeInOrder k _ _ tagsFromEnvVars.nodupKeys commonTags.nodupKeys]
  change (AList.lookup k tagsFromEnvVars).or
    ((AList.lookup k commonTags).filter (fun v => decide (k ≠ "" ∧ v ≠ ""))) = _
  cases AList.lookup k tagsFromEnvVars with
  | some v => rfl
  | none =>
    cases AList.lookup k commonTags with
    | none => rfl
    | some v => simp [Option.filter_some]

/-- C9. When every entry of the environment-derived map has a non-empty key and a non-empty
value, every key and every value of the result of `calculateCommonTags` is a non-empty string,
whatever the caller's map; and with an empty environment-derived map the caller's map with the
entries `"":x` and `a:""` is merged to the empty map. -/
theorem calculateCommonTags_nonempty (tagsFromEnvVars commonTags : TagMap)
    (henv : ∀ e ∈ tagsFromEnvVars.entries, e.1 ≠ "" ∧ e.2 ≠ "") :
    (∀ e ∈ (calculateCommonTags tagsFromEnvVars commonTags).entries, e.1 ≠ "" ∧ e.2 ≠ "") ∧
    calculateCommonTags ∅ (List.toAList [⟨"", "x"⟩, ⟨"a", ""⟩]) = ∅ := by
  refine ⟨?_, AList.ext (by decide)⟩
  rintro ⟨k, v⟩ he
  have hlookup : v ∈ AList.lookup k (calculateCommonTags tagsFromEnvVars commonTags) :=
    AList.mem_lookup_iff.2 he
  unfold calculateCommonTags at hlookup
  rw [lookup_mergeInOrder k _ _ tagsFromEnvVars.nodupKeys commonTags.nodupKeys] at hlookup
  change v ∈ (AList.lookup k tagsFromEnvVars).or
    ((AList.lookup k commonTags).filter (fun v => decide (k ≠ "" ∧ v ≠ ""))) at hlookup
  cases h1 : AList.lookup k tagsFromEnvVars with
  | some v1 =>
    rw [h1] at hlookup
    have hv : v1 = v := by simpa using hlookup
    subst hv
    exact henv ⟨k, v1⟩ (AList.mem_lookup_iff.1 h1)
  | none =>
    rw [h1, Option.none_or] at hlookup
    cases h2 : AList.lookup k commonTags with
    | none => rw [h2] at hlookup; simp at hlookup
    | some v2 =>
      rw [h2, Option.filter_some] at hlookup
      by_cases hkeep : k ≠ "" ∧ v2 ≠ ""
      · have hv : v2 = v := by simpa [hkeep] using hlookup
        subst hv
        exact hkeep
      · simp [hkeep] at hlookup

/-- C9, witness: the environment-derived map `b:3`, the caller's map `"":x, a:1`. -/
theorem calculateCommonTags_nonempty_witness :
    (∀ e ∈ (List.toAList [⟨"b", "3"⟩] : TagMap).entries, e.1 ≠ "" ∧ e.2 ≠ "") ∧
    (∀ e ∈ (calculateCommonTags (List.toAList [⟨"b", "3"⟩])
        (List.toAList [⟨"", "x"⟩, ⟨"a", "1"⟩])).entries, e.1 ≠ "" ∧ e.2 ≠ "") ∧
    calculateCommonTags ∅ (List.toAList [⟨"", "x"⟩, ⟨"a", ""⟩]) = ∅ :=
  ⟨by decide,
    calculateCommonTags_nonempty (List.toAList [⟨"b", "3"⟩])
      (List.toAList [⟨"", "x"⟩, ⟨"a", "1"⟩]) (by decide)⟩

/-! ## Options and NewConfig -/

theorem calculateLocation_ok_isValid (isValid : String → Bool) (hudp : isValid "udp" = true)
    (env : Environ) (location loc : String)
    (hok : calculateLocation isValid env location = .ok loc) :
    isValid loc = true := by
  by_cases hguard : location ≠ "" ∧ isValid location = false
  · rw [calculateLocation_argument_invalid isValid env location hguard.1 hguard.2] at hok
    cases hok
  · have harg : location = "" ∨ isValid location = true := by
      by_cases hl : location = ""
      · exact Or.inl hl
      · right
        cases hv : isValid location
        · exact absurd ⟨hl, hv⟩ hguard
        · rfl
    rw [calculateLocation_argument_ok isValid env location harg] at hok
    cases henv : env "SPECTATOR_OUTPUT_LOCATION" with
    | some override =>
      rw [henv] at hok
      cases hv : isValid override with
      | false => simp [hv] at hok
      | true =>
        simp only [hv, Bool.true_eq_false, if_false, Except.ok.injEq] at hok
        by_cases ho : override = ""
        · rw [if_pos ho] at hok; rw [← hok]; exact hudp
        · rw [if_neg ho] at hok; rw [← hok]; exact hv
    | none =>
      rw [henv] at hok
      simp only [Except.ok.injEq] at hok
      by_cases hl : location = ""
      · rw [if_pos hl] at hok; rw [← hok]; exact hudp
      · rw [if_neg hl] at hok; rw [← hok]
        exact harg.resolve_left hl

theorem applyOpts_location {L W : Type} :
    ∀ (opts : List (ConfigOption L W)) (conf conf' : Config L W),
      (∀ opt ∈ opts, opt = .nilInterface ∨ opt = .func none ∨ ∃ w, opt = WithWriter w) →
      applyOpts opts conf = some conf' →
      (conf'.location = "custom" ∧ ∃ w, WithWriter w ∈ opts) ∨
        (conf'.location = conf.location ∧ ∀ w, WithWriter w ∉ opts) := by
  intro opts
  induction opts with
  | nil =>
    intro conf conf' _ h
    simp only [applyOpts, Option.some.injEq] at h
    subst h
    exact Or.inr ⟨rfl, fun w hw => by cases hw⟩
  | cons o t ih =>
    intro conf conf' hopts h
    have htail : ∀ opt ∈ t, opt = .nilInterface ∨ opt = .func none ∨ ∃ w, opt = WithWriter w :=
      fun opt hmem => hopts opt (List.mem_cons_of_mem _ hmem)
    rcases hopts o (List.mem_cons_self _ _) with rfl | rfl | ⟨w, rfl⟩
    · simp [applyOpts, ConfigOption.apply] at h
    · simp only [applyOpts, ConfigOption.apply, configOptionFunc.apply] at h
      rcases ih conf conf' htail h with ⟨hc, w, hw⟩ | ⟨hc, hnone⟩
      · exact Or.inl ⟨hc, w, List.mem_cons_of_mem _ hw⟩
      · refine Or.inr ⟨hc, fun w hw => ?_⟩
        rcases List.mem_cons.1 hw with heq | hmem
        · simp [WithWriter] at heq
        · exact hnone w hmem
    · simp only [applyOpts, ConfigOption.apply, configOptionFunc.apply, WithWriter] at h
      rcases ih _ conf' htail h with ⟨hc, _⟩ | ⟨hc, _⟩
      · exact Or.inl ⟨hc, w, List.mem_cons_self _ _⟩
      · exact Or.inl ⟨hc, w, List.mem_cons_self _ _⟩

/-- An option that is the nil function is skipped by the loop over the options. -/
theorem applyOpts_nil_func {L W : Type} (before after : List (ConfigOption L W)) :
    ∀ conf : Config L W,
      applyOpts (before ++ ConfigOption.func none :: after) conf
        = applyOpts (before ++ after) conf := by
  induction before with
  | nil => intro conf; rfl
  | cons o t ih =>
    intro conf
    simp only [List.cons_append, applyOpts]
    cases o.apply conf with
    | none => rfl
    | some c => exact ih c

/-- In `NewConfig`, an option that is the nil function `configOptionFunc(nil)` is a no-op. -/
theorem NewConfig_nil_func {L W : Type} (isValid : String → Bool) (env : Environ)
    (tagsFromEnvVars : TagMap) (newDefaultLogger : L) (location : String) (commonTags : TagMap)
    (log : Option L) (before after : List (ConfigOption L W)) :
    NewConfig isValid env tagsFromEnvVars newDefaultLogger location commonTags log
        (before ++ ConfigOption.func none :: after)
      = NewConfig isValid env tagsFromEnvVars newDefaultLogger location commonTags log
        (before ++ after) := by
  unfold NewConfig
  cases calculateLocation isValid env location with
  | error e => rfl
  | ok loc => simp only [applyOpts_nil_func]

/-- The loop over the options panics as soon as one of them is the nil interface value. -/
theorem applyOpts_nil_interface {L W : Type} (before after : List (ConfigOption L W)) :
    ∀ conf : Config L W,
      applyOpts (before ++ ConfigOption.nilInterface :: after) conf = none := by
  induction before with
  | nil => intro conf; rfl
  | cons o t ih =>
    intro conf
    simp only [List.cons_append, applyOpts]
    cases o.apply conf with
    | none => rfl
    | some c => exact ih c

/-- With the nil interface value among its options, `NewConfig` returns no configuration,
whatever its other arguments. -/
theorem NewConfig_nil_interface_no_config {L W : Type} (isValid : String → Bool)
    (env : Environ) (tagsFromEnvVars : TagMap) (newDefaultLogger : L) (location : String)
    (commonTags : TagMap) (log : Option L) (before after : List (ConfigOption L W))
    (conf : Config L W) :
    NewConfig isValid env tagsFromEnvVars newDefaultLogger location commonTags log
        (before ++ ConfigOption.nilInterface :: after) ≠ .ok conf := by
  unfold NewConfig
  cases calculateLocation isValid env location with
  | error e => intro h; cases h
  | ok loc =>
    simp only [applyOpts_nil_interface]
    intro h
    cases h

/-- C2, the failing run. With the nil interface value as its only option (the call
`NewConfig("", nil, nil, nil)`), `NewConfig` panics, while without the option it returns the
default configuration. -/
theorem NewConfig_nil_interface_panics :
    NewConfig IsValidOutputLocation emptyEnviron ∅ () "" ∅ none
        [(ConfigOption.nilInterface : ConfigOption Unit Unit)] = .panic ∧
    NewConfig IsValidOutputLocation emptyEnviron ∅ () "" ∅ none
        ([] : List (ConfigOption Unit Unit)) = .ok ⟨"udp", ∅, some (), none⟩ :=
  ⟨rfl, rfl⟩

/-- C3, as amended. When `NewConfig` returns a configuration and every option is nil or a custom
writer option, the location is `custom` if a custom writer option is among the options, and
otherwise is one of the bare tokens or a string `scheme://rest` with an allowed scheme. -/
theorem NewConfig_location {L W : Type} (env : Environ) (tagsFromEnvVars : TagMap)
    (newDefaultLogger : L) (location : String) (commonTags : TagMap) (log : Option L)
    (opts : List (ConfigOption L W)) (conf : Config L W)
    (hopts : ∀ opt ∈ opts, opt = .nilInterface ∨ opt = .func none ∨ ∃ w, opt = WithWriter w)
    (hret : NewConfig IsValidOutputLocation env tagsFromEnvVars newDefaultLogger location
      commonTags log opts = .ok conf) :
    ((∃ w, WithWriter w ∈ opts) → conf.location = "custom") ∧
    ((∀ w, WithWriter w ∉ opts) → LocationGrammar conf.location) := by
  unfold NewConfig at hret
  cases hloc : calculateLocation IsValidOutputLocation env location with
  | error e => rw [hloc] at hret; cases hret
  | ok loc =>
    rw [hloc] at hret
    simp only [] at hret
    cases hopt : applyOpts opts
        ({ location := loc, commonTags := calculateCommonTags tagsFromEnvVars commonTags,
           log := calculateLogger newDefaultLogger log, writer := none } : Config L W) with
    | none => rw [hopt] at hret; cases hret
    | some c =>
      rw [hopt] at hret
      cases hret
      have hvalid : IsValidOutputLocation loc = true :=
        calculateLocation_ok_isValid IsValidOutputLocation (by decide) env location loc hloc
      rcases applyOpts_location opts _ conf hopts hopt with ⟨hc, w, hw⟩ | ⟨hc, hnone⟩
      · exact ⟨fun _ => hc, fun h => absurd hw (h w)⟩
      · refine ⟨fun ⟨w, hw⟩ => absurd hw (hnone w), fun _ => ?_⟩
        rw [hc]
        exact (IsValidOutputLocation_iff loc).1 hvalid

/-- C3, witness: a nil function and a custom writer option on the location `stdout`. -/
theorem NewConfig_location_witness :
    (∀ opt ∈ [ConfigOption.func none, (WithWriter (some 7) : ConfigOption Unit Nat)],
      opt = .nilInterface ∨ opt = .func none ∨ ∃ w, opt = WithWriter w) ∧
    NewConfig IsValidOutputLocation emptyEnviron ∅ () "stdout" ∅ none
        [ConfigOption.func none, (WithWriter (some 7) : ConfigOption Unit Nat)]
      = .ok ⟨"custom", ∅, some (), some 7⟩ ∧
    ((∃ w, (WithWriter w : ConfigOption Unit Nat) ∈
        [ConfigOption.func none, (WithWriter (some 7) : ConfigOption Unit Nat)]) →
      (⟨"custom", ∅, some (), some 7⟩ : Config Unit Nat).location = "custom") ∧
    ((∀ w, (WithWriter w : ConfigOption Unit Nat) ∉
        [ConfigOption.func none, (WithWriter (some 7) : ConfigOption Unit Nat)]) →
      LocationGrammar (⟨"custom", ∅, some (), some 7⟩ : Config Unit Nat).location) :=
  have hopts : ∀ opt ∈ [ConfigOption.func none, (WithWriter (some 7) : ConfigOption Unit Nat)],
      opt = .nilInterface ∨ opt = .func none ∨ ∃ w, opt = WithWriter w := by
    intro opt hmem
    rcases List.mem_cons.1 hmem with h | h
    · exact Or.inr (Or.inl h)
    · exact Or.inr (Or.inr ⟨some 7, List.mem_singleton.1 h⟩)
  ⟨hopts, rfl,
    NewConfig_location emptyEnviron ∅ () "stdout" ∅ none
      [ConfigOption.func none, (WithWriter (some 7) : ConfigOption Unit Nat)]
      ⟨"custom", ∅, some (), some 7⟩ hopts rfl⟩

/-- C3, counterexample. With the custom writer option, `NewConfig` returns a configuration whose
location is `custom`, which is neither a bare token nor a string `scheme://rest`. -/
theorem NewConfig_location_counterexample :
    NewConfig IsValidOutputLocation emptyEnviron ∅ () "udp" ∅ none
        [(WithWriter (some ()) : ConfigOption Unit Unit)]
      = .ok ⟨"custom", ∅, some (), some ()⟩ ∧
    ¬ LocationGrammar "custom" :=
  ⟨rfl, fun h => Bool.false_ne_true
    ((by decide : IsValidOutputLocation "custom" = false).symm.trans
      ((IsValidOutputLocation_iff "custom").2 h))⟩

/-- C10, as amended. Applied to any configuration, the custom writer option made from a value
`w` of the interface `writer.Writer`, nil included, yields a configuration whose location is
`custom` and whose writer is `w`: the writer is present exactly when `w` is not nil, and is
then the given writer. -/
theorem WithWriter_apply {L W : Type} (conf : Config L W) (w : Option W) :
    ∃ conf' : Config L W,
      (WithWriter w).apply conf = some conf' ∧
      conf'.location = "custom" ∧ conf'.writer = w ∧
      (conf'.writer.isSome = true ↔ w ≠ none) ∧
      (∀ x : W, w = some x → conf'.writer = some x) := by
  refine ⟨{ conf with location := "custom", writer := w }, rfl, rfl, rfl, ?_, fun x hx => hx⟩
  cases w with
  | none => simp
  | some x => simp

/-- C10, counterexample. The custom writer option made from the nil writer, `WithWriter(nil)`,
applied to the configuration with location `udp`, yields the location `custom` and no
writer. -/
theorem WithWriter_apply_counterexample :
    (WithWriter (none : Option Unit)).apply (⟨"udp", ∅, some (), none⟩ : Config Unit Unit)
      = some ⟨"custom", ∅, some (), none⟩ ∧
    (⟨"custom", ∅, some (), none⟩ : Config Unit Unit).writer.isSome = false :=
  ⟨rfl, rfl⟩

/-! ## Further helpers -/

theorem calculateLocation_ok_argument (isValid : String → Bool) (env : Environ)
    (location loc : String) (hok : calculateLocation isValid env location = .ok loc) :
    location = "" ∨ isValid location = true := by
  by_cases hl : location = ""
  · exact Or.inl hl
  · right
    cases hv : isValid location
    · rw [calculateLocation_argument_invalid isValid env location hl hv] at hok
      cases hok
    · rfl

theorem calculateLocation_ok_ne_empty (isValid : String → Bool) (env : Environ)
    (location loc : String) (hok : calculateLocation isValid env location = .ok loc) :
    loc ≠ "" := by
  have harg := calculateLocation_ok_argument isValid env location loc hok
  rw [calculateLocation_argument_ok isValid env location harg] at hok
  have hudp : ("udp" : String) ≠ "" := by decide
  cases henv : env "SPECTATOR_OUTPUT_LOCATION" with
  | some override =>
    rw [henv] at hok
    cases hv : isValid override with
    | false => simp [hv] at hok
    | true =>
      simp only [hv, Bool.true_eq_false, if_false, Except.ok.injEq] at hok
      by_cases ho : override = ""
      · rw [if_pos ho] at hok; rw [← hok]; exact hudp
      · rw [if_neg ho] at hok; rw [← hok]; exact ho
  | none =>
    rw [henv] at hok
    simp only [Except.ok.injEq] at hok
    by_cases hl : location = ""
    · rw [if_pos hl] at hok; rw [← hok]; exact hudp
    · rw [if_neg hl] at hok; rw [← hok]; exact hl

theorem applyOpts_eq_foldlM {L W : Type} :
    ∀ (opts : List (ConfigOption L W)) (conf : Config L W),
      applyOpts opts conf = opts.foldlM (fun conf opt => ConfigOption.apply opt conf) conf := by
  intro opts
  induction opts with
  | nil => intro conf; rfl
  | cons o t ih =>
    intro conf
    rw [List.foldlM_cons]
    simp only [applyOpts]
    cases o.apply conf with
    | none => rfl
    | some c => exact ih c

theorem applyOpts_map_func {L W : Type} :
    ∀ (cs : List (configOptionFunc L W)) (conf : Config L W),
      applyOpts (cs.map ConfigOption.func) conf
        = some (cs.foldl (fun conf c => configOptionFunc.apply c conf) conf) := by
  intro cs
  induction cs with
  | nil => intro conf; rfl
  | cons c t ih =>
    intro conf
    simp only [List.map_cons, applyOpts, ConfigOption.apply, List.foldl_cons]
    exact ih _

theorem NewConfig_of_location_ok {L W : Type} (isValid : String → Bool) (env : Environ)
    (tagsFromEnvVars : TagMap) (newDefaultLogger : L) (location : String) (commonTags : TagMap)
    (log : Option L) (opts : List (ConfigOption L W)) (loc : String)
    (hloc : calculateLocation isValid env location = .ok loc) :
    NewConfig isValid env tagsFromEnvVars newDefaultLogger location commonTags log opts =
      match applyOpts opts
          ⟨loc, calculateCommonTags tagsFromEnvVars commonTags,
            calculateLogger newDefaultLogger log, none⟩ with
      | none => .panic
      | some conf => .ok conf := by
  unfold NewConfig
  rw [hloc]

theorem NewConfig_of_location_error {L W : Type} (isValid : String → Bool) (env : Environ)
    (tagsFromEnvVars : TagMap) (newDefaultLogger : L) (location : String) (commonTags : TagMap)
    (log : Option L) (opts : List (ConfigOption L W)) (err : String)
    (hloc : calculateLocation isValid env location = .error err) :
    NewConfig isValid env tagsFromEnvVars newDefaultLogger location commonTags log opts
      = .error err := by
  unfold NewConfig
  rw [hloc]

/-! ## Claims about NewConfig -/

/-- C11. `NewConfig` returns an error exactly when `calculateLocation` fails on the location
argument, and the error is then the one of `calculateLocation`: whatever the tag map, the logger
and the options are, no option is applied and no configuration is returned. -/
theorem NewConfig_error_iff {L W : Type} (isValid : String → Bool) (env : Environ)
    (tagsFromEnvVars : TagMap) (newDefaultLogger : L) (location : String) (commonTags : TagMap)
    (log : Option L) (opts : List (ConfigOption L W)) (err : String) :
    NewConfig isValid env tagsFromEnvVars newDefaultLogger location commonTags log opts
        = .error err ↔
      calculateLocation isValid env location = .error err := by
  constructor
  · intro h
    cases hloc : calculateLocation isValid env location with
    | error e =>
      rw [NewConfig_of_location_error isValid env tagsFromEnvVars newDefaultLogger location
        commonTags log opts e hloc] at h
      cases h
      rfl
    | ok loc =>
      rw [NewConfig_of_location_ok isValid env tagsFromEnvVars newDefaultLogger location
        commonTags log opts loc hloc] at h
      cases happ : applyOpts opts
          (⟨loc, calculateCommonTags tagsFromEnvVars commonTags,
            calculateLogger newDefaultLogger log, none⟩ : Config L W) with
      | none => rw [happ] at h; cases h
      | some c => rw [happ] at h; cases h
  · exact NewConfig_of_location_error isValid env tagsFromEnvVars newDefaultLogger location
      commonTags log opts err

/-- C12. When `calculateLocation` succeeds with `loc`, `NewConfig` returns the base
configuration with the options applied one after the other, each once and in the order given:
for options that hold a `configOptionFunc` the result is the left fold of `apply` over them, in
general `NewConfig` returns a configuration exactly when the fold of the interface call over
the options yields it, and after `WithWriter(w1), WithWriter(w2)` the writer is `w2`. -/
theorem NewConfig_applies_options {L W : Type} (isValid : String → Bool) (env : Environ)
    (tagsFromEnvVars : TagMap) (newDefaultLogger : L) (location : String) (commonTags : TagMap)
    (log : Option L) (loc : String)
    (hloc : calculateLocation isValid env location = .ok loc) :
    (∀ cs : List (configOptionFunc L W),
      NewConfig isValid env tagsFromEnvVars newDefaultLogger location commonTags log
          (cs.map ConfigOption.func)
        = .ok (cs.foldl (fun conf c => configOptionFunc.apply c conf)
            ⟨loc, calculateCommonTags tagsFromEnvVars commonTags,
              calculateLogger newDefaultLogger log, none⟩)) ∧
    (∀ (opts : List (ConfigOption L W)) (conf : Config L W),
      NewConfig isValid env tagsFromEnvVars newDefaultLogger location commonTags log opts
          = .ok conf ↔
        opts.foldlM (fun conf opt => ConfigOption.apply opt conf)
            ⟨loc, calculateCommonTags tagsFromEnvVars commonTags,
              calculateLogger newDefaultLogger log, none⟩
          = some conf) ∧
    (∀ w1 w2 : Option W, ∃ conf : Config L W,
      NewConfig isValid env tagsFromEnvVars newDefaultLogger location commonTags log
          [WithWriter w1, WithWriter w2] = .ok conf ∧
        conf.writer = w2) := by
  refine ⟨fun cs => ?_, fun opts conf => ?_, fun w1 w2 => ?_⟩
  · rw [NewConfig_of_location_ok isValid env tagsFromEnvVars newDefaultLogger location
      commonTags log _ loc hloc, applyOpts_map_func]
  · rw [NewConfig_of_location_ok isValid env tagsFromEnvVars newDefaultLogger location
      commonTags log opts loc hloc, ← applyOpts_eq_foldlM]
    cases applyOpts opts
        (⟨loc, calculateCommonTags tagsFromEnvVars commonTags,
          calculateLogger newDefaultLogger log, none⟩ : Config L W) with
    | none => constructor <;> (intro h; cases h)
    | some c =>
      constructor
      · intro h; cases h; rfl
      · intro h; cases h; rfl
  · rw [NewConfig_of_location_ok isValid env tagsFromEnvVars newDefaultLogger location
      commonTags log _ loc hloc]
    exact ⟨_, rfl, rfl⟩

/-- C12, witness: the location `stdout`, no tags, no logger. -/
theorem NewConfig_applies_options_witness :
    calculateLocation IsValidOutputLocation emptyEnviron "stdout" = .ok "stdout" ∧
    (∀ cs : List (configOptionFunc Unit Nat),
      NewConfig IsValidOutputLocation emptyEnviron ∅ () "stdout" ∅ none
          (cs.map ConfigOption.func)
        = .ok (cs.foldl (fun conf c => configOptionFunc.apply c conf)
            ⟨"stdout", calculateCommonTags ∅ ∅, calculateLogger () none, none⟩)) ∧
    (∀ (opts : List (ConfigOption Unit Nat)) (conf : Config Unit Nat),
      NewConfig IsValidOutputLocation emptyEnviron ∅ () "stdout" ∅ none opts = .ok conf ↔
        opts.foldlM (fun conf opt => ConfigOption.apply opt conf)
            ⟨"stdout", calculateCommonTags ∅ ∅, calculateLogger () none, none⟩
          = some conf) ∧
    (∀ w1 w2 : Option Nat, ∃ conf : Config Unit Nat,
      NewConfig IsValidOutputLocation emptyEnviron ∅ () "stdout" ∅ none
          [WithWriter w1, WithWriter w2] = .ok conf ∧
        conf.writer = w2) :=
  ⟨by decide,
    NewConfig_applies_options IsValidOutputLocation emptyEnviron ∅ () "stdout" ∅ none "stdout"
      (by decide)⟩

/-- C13. When `calculateLocation` succeeds with `loc`, `NewConfig` without options returns the
configuration whose location is `loc`, whose tags are the result of `calculateCommonTags`,
whose logger is the supplied one, or the default logger when none is supplied, and which has no
writer. With nothing set in the environment, the location `udp://localhost:1234`, the tags
`app:foo` and `"":bar` and no logger give the location `udp://localhost:1234`, the tags
`app:foo`, the default logger and no writer. -/
theorem NewConfig_no_options {L W : Type} (isValid : String → Bool) (env : Environ)
    (tagsFromEnvVars : TagMap) (newDefaultLogger : L) (location : String) (commonTags : TagMap)
    (log : Option L) (loc : String)
    (hloc : calculateLocation isValid env location = .ok loc) :
    NewConfig isValid env tagsFromEnvVars newDefaultLogger location commonTags log
        ([] : List (ConfigOption L W))
      = .ok ⟨loc, calculateCommonTags tagsFromEnvVars commonTags,
          some (log.getD newDefaultLogger), none⟩ ∧
    NewConfig IsValidOutputLocation emptyEnviron ∅ newDefaultLogger "udp://localhost:1234"
        (List.toAList [⟨"app", "foo"⟩, ⟨"", "bar"⟩]) none ([] : List (ConfigOption L W))
      = .ok ⟨"udp://localhost:1234", List.toAList [⟨"app", "foo"⟩], some newDefaultLogger,
          none⟩ := by
  constructor
  · rw [NewConfig_of_location_ok isValid env tagsFromEnvVars newDefaultLogger location
      commonTags log _ loc hloc]
    cases log with
    | none => rfl
    | some l => rfl
  · rw [NewConfig_of_location_ok IsValidOutputLocation emptyEnviron ∅ newDefaultLogger
      "udp://localhost:1234" _ none _ "udp://localhost:1234" (by decide)]
    have htags : calculateCommonTags ∅ (List.toAList [⟨"app", "foo"⟩, ⟨"", "bar"⟩])
        = List.toAList [⟨"app", "foo"⟩] := AList.ext (by decide)
    rw [htags]
    rfl

/-- C13, witness: the supplied logger `5` is kept. -/
theorem NewConfig_no_options_witness :
    calculateLocation IsValidOutputLocation emptyEnviron "memory" = .ok "memory" ∧
    NewConfig IsValidOutputLocation emptyEnviron ∅ 0 "memory" ∅ (some 5)
        ([] : List (ConfigOption Nat Unit))
      = .ok ⟨"memory", calculateCommonTags ∅ ∅, some ((some 5).getD 0), none⟩ ∧
    NewConfig IsValidOutputLocation emptyEnviron ∅ 0 "udp://localhost:1234"
        (List.toAList [⟨"app", "foo"⟩, ⟨"", "bar"⟩]) none ([] : List (ConfigOption Nat Unit))
      = .ok ⟨"udp://localhost:1234", List.toAList [⟨"app", "foo"⟩], some 0, none⟩ :=
  ⟨by decide,
    NewConfig_no_options IsValidOutputLocation emptyEnviron ∅ 0 "memory" ∅ (some 5) "memory"
      (by decide)⟩

/-! ## Further claims about calculateLocation and WithWriter -/

/-- C14. Whenever `calculateLocation` succeeds, whatever the location argument and the
environment, the returned location is non-empty and passes the validity predicate: it is a bare
token or a string `scheme://rest` with an allowed scheme and a non-empty rest. -/
theorem calculateLocation_ok_valid (env : Environ) (location loc : String)
    (hok : calculateLocation IsValidOutputLocation env location = .ok loc) :
    loc ≠ "" ∧ IsValidOutputLocation loc = true ∧ LocationGrammar loc := by
  have hvalid : IsValidOutputLocation loc = true :=
    calculateLocation_ok_isValid IsValidOutputLocation (by decide) env location loc hok
  exact ⟨calculateLocation_ok_ne_empty IsValidOutputLocation env location loc hok, hvalid,
    (IsValidOutputLocation_iff loc).1 hvalid⟩

/-- C14, witness: the empty argument with the override `unix:///tmp/sock`. -/
theorem calculateLocation_ok_valid_witness :
    calculateLocation IsValidOutputLocation
        (setenv emptyEnviron "SPECTATOR_OUTPUT_LOCATION" "unix:///tmp/sock") ""
      = .ok "unix:///tmp/sock" ∧
    "unix:///tmp/sock" ≠ "" ∧ IsValidOutputLocation "unix:///tmp/sock" = true ∧
      LocationGrammar "unix:///tmp/sock" :=
  ⟨by decide,
    calculateLocation_ok_valid (setenv emptyEnviron "SPECTATOR_OUTPUT_LOCATION" "unix:///tmp/sock")
      "" "unix:///tmp/sock" (by decide)⟩

/-- C15. When `SPECTATOR_OUTPUT_LOCATION` is set to the empty string, `calculateLocation` fails
for every location argument; for an argument that is empty or valid the error is the one of an
invalid override, so that neither the argument nor the default `udp` is returned. -/
theorem calculateLocation_empty_override (env : Environ) (location : String)
    (hset : env "SPECTATOR_OUTPUT_LOCATION" = some "") :
    (∃ err, calculateLocation IsValidOutputLocation env location = .error err) ∧
    (location = "" ∨ IsValidOutputLocation location = true →
      calculateLocation IsValidOutputLocation env location
        = .error ("SPECTATOR_OUTPUT_LOCATION is invalid: " ++ "")) := by
  have hoverride : location = "" ∨ IsValidOutputLocation location = true →
      calculateLocation IsValidOutputLocation env location
        = .error ("SPECTATOR_OUTPUT_LOCATION is invalid: " ++ "") := by
    intro harg
    rw [calculateLocation_argument_ok IsValidOutputLocation env location harg, hset]
    simp [IsValidOutputLocation_empty]
  refine ⟨?_, hoverride⟩
  by_cases hl : location = ""
  · exact ⟨_, hoverride (Or.inl hl)⟩
  · cases hv : IsValidOutputLocation location
    · exact ⟨_, calculateLocation_argument_invalid IsValidOutputLocation env location hl hv⟩
    · exact ⟨_, hoverride (Or.inr hv)⟩

/-- C15, witness: the valid argument `stdout` under the override set to the empty string. -/
theorem calculateLocation_empty_override_witness :
    setenv emptyEnviron "SPECTATOR_OUTPUT_LOCATION" "" "SPECTATOR_OUTPUT_LOCATION" = some "" ∧
    (∃ err, calculateLocation IsValidOutputLocation
        (setenv emptyEnviron "SPECTATOR_OUTPUT_LOCATION" "") "stdout" = .error err) ∧
    ("stdout" = "" ∨ IsValidOutputLocation "stdout" = true →
      calculateLocation IsValidOutputLocation
          (setenv emptyEnviron "SPECTATOR_OUTPUT_LOCATION" "") "stdout"
        = .error ("SPECTATOR_OUTPUT_LOCATION is invalid: " ++ "")) :=
  ⟨by decide,
    calculateLocation_empty_override (setenv emptyEnviron "SPECTATOR_OUTPUT_LOCATION" "")
      "stdout" (by decide)⟩

/-- C16. Applying the custom writer option to a configuration leaves its common tags and its
logger as they were: apart from them the result holds the location `custom` and the writer
given to `WithWriter`. -/
theorem WithWriter_apply_frame {L W : Type} (conf : Config L W) (w : Option W) :
    ∃ conf' : Config L W,
      (WithWriter w).apply conf = some conf' ∧
      conf'.commonTags = conf.commonTags ∧ conf'.log = conf.log ∧
      conf' = ⟨"custom", conf.commonTags, conf.log, w⟩ :=
  ⟨{ conf with location := "custom", writer := w }, rfl, rfl, rfl, rfl⟩

/-- C17. Under a fixed environment `calculateLocation` is idempotent: when it succeeds on `x`
with `y`, it succeeds on `y` with `y`. -/
theorem calculateLocation_idempotent (env : Environ) (x y : String)
    (hok : calculateLocation IsValidOutputLocation env x = .ok y) :
    calculateLocation IsValidOutputLocation env y = .ok y := by
  have hvalid : IsValidOutputLocation y = true :=
    calculateLocation_ok_isValid IsValidOutputLocation (by decide) env x y hok
  have hne : y ≠ "" := calculateLocation_ok_ne_empty IsValidOutputLocation env x y hok
  have harg := calculateLocation_ok_argument IsValidOutputLocation env x y hok
  rw [calculateLocation_argument_ok IsValidOutputLocation env x harg] at hok
  rw [calculateLocation_argument_ok IsValidOutputLocation env y (Or.inr hvalid)]
  cases henv : env "SPECTATOR_OUTPUT_LOCATION" with
  | some override =>
    rw [henv] at hok
    exact hok
  | none => simp [hne]

/-- C17, witness: the empty argument resolves to `udp`, and `udp` resolves to itself. -/
theorem calculateLocation_idempotent_witness :
    calculateLocation IsValidOutputLocation emptyEnviron "" = .ok "udp" ∧
    calculateLocation IsValidOutputLocation emptyEnviron "udp" = .ok "udp" :=
  ⟨by decide, calculateLocation_idempotent emptyEnviron "" "udp" (by decide)⟩

end Spectator
